import Mathlib

/-!
Verification development for the pingpong game server
(`src/server/index.ts`).  The server keeps one global mutable
`gameState` record plus two module-level variables (`gameInterval`,
`ballResetInProgress`), and mutates them from a 60 FPS physics tick and
from socket event handlers (`connection`, `paddleMove`,
`paddlePosition`, `startGame`, `playAgain`, `disconnect`).

The embedding below models that state as an explicit record and each
handler / the tick body as a pure state transformer.  JavaScript object
key maps (`paddles`, `score`, `playersReady`) always share the same key
set in insertion order, so they are modelled as one list of `Player`
records in join order.  `Math.random()` inputs are passed explicitly
(a coin for serve direction, a rational `r` for the vertical component).
Real-valued positions and velocities are modelled as rationals.
-/

namespace PingPong

/-- `WIDTH` constant from the server. -/
def WIDTH : ℚ := 800

/-- `HEIGHT` constant from the server. -/
def HEIGHT : ℚ := 600

/-- `PADDLE_HEIGHT` constant from the server. -/
def PADDLE_HEIGHT : ℚ := 100

/-- `PADDLE_SPEED` constant from the server. -/
def PADDLE_SPEED : ℚ := 8

/-- `WINNING_SCORE` constant from the server. -/
def WINNING_SCORE : Nat := 11

/-- The ball record: `gameState.ball` with position and velocity. -/
structure Ball where
  x : ℚ
  y : ℚ
  vx : ℚ
  vy : ℚ
deriving DecidableEq, Repr

/-- One connected session's row across the three parallel key maps
`gameState.paddles` / `gameState.score` / `gameState.playersReady`.
The handlers insert and delete the three keys together, so the maps
always have the same keys in the same insertion order and are modelled
as a single join-ordered list. -/
structure Player where
  pid : String
  paddle : ℚ
  score : Nat
  ready : Bool
deriving DecidableEq, Repr

/-- The `gameState` global of the server. -/
structure GameState where
  ball : Ball
  players : List Player
  playerCount : Nat
  gameStarted : Bool
  gameEnded : Bool
  winner : Option String
deriving DecidableEq, Repr

/-- The whole mutable server state: `gameState` plus the module-level
variables `ballResetInProgress` and `gameInterval` (modelled as the
boolean `intervalRunning`), a count of scheduled-but-unfired
`setTimeout` respawn callbacks, and a count of `gameWon` emissions. -/
structure ServerState where
  gs : GameState
  ballResetInProgress : Bool
  intervalRunning : Bool
  pendingRespawn : Nat
  emittedGameWon : Nat
deriving DecidableEq, Repr

/-- The initial server state at process start. -/
def initState : ServerState :=
  { gs :=
      { ball := { x := WIDTH / 2, y := HEIGHT / 2, vx := 0, vy := 0 }
        players := []
        playerCount := 0
        gameStarted := false
        gameEnded := false
        winner := none }
    ballResetInProgress := false
    intervalRunning := false
    pendingRespawn := 0
    emittedGameWon := 0 }

/-- `resetBall()`: recentre the ball and give it a fresh random
velocity (`coin` decides the horizontal direction, `r ∈ [0,1)` stands
for `Math.random()` in the vertical component), and clear
`ballResetInProgress`. -/
def resetBall (coin : Bool) (r : ℚ) (s : ServerState) : ServerState :=
  { s with
    gs := { s.gs with
      ball :=
        { x := WIDTH / 2
          y := HEIGHT / 2
          vx := if coin then 5 else -5
          vy := (r - 1/2) * 6 } }
    ballResetInProgress := false }

/-- `checkWinner()`: scan the score map in key (join) order for the
first player at or above `WINNING_SCORE`; if found, set the end flags,
record the winner, stop the interval, emit `gameWon` once, and report
`true`. -/
def checkWinner (s : ServerState) : ServerState × Bool :=
  match s.gs.players.find? (fun p => decide (WINNING_SCORE ≤ p.score)) with
  | some p =>
      ({ s with
         gs := { s.gs with
           gameEnded := true
           gameStarted := false
           winner := some p.pid }
         intervalRunning := false
         emittedGameWon := s.emittedGameWon + 1 }, true)
  | none => (s, false)

/-- The `Object.keys(gameState.score).forEach` loop in `startGame()`
that zeroes every score. -/
def resetScores (l : List Player) : List Player :=
  l.map fun p => { p with score := 0 }

/-- Ball integration: `ball.x += ball.vx; ball.y += ball.vy`. -/
def integrate (b : Ball) : Ball :=
  { b with x := b.x + b.vx, y := b.y + b.vy }

/-- Wall bounce: `if (ball.y <= 10 || ball.y >= HEIGHT - 10) vy *= -1`. -/
def wallBounce (b : Ball) : Ball :=
  if b.y ≤ 10 ∨ b.y ≥ HEIGHT - 10 then { b with vy := -b.vy } else b

/-- The paddle collision condition of the tick body for one paddle:
position-overlap test on the slab around the paddle's plane and the
padded vertical extent.  (The source tests only positions, never the
sign of `vx`.) -/
def hitCond (isLeft : Bool) (paddleY : ℚ) (b : Ball) : Bool :=
  let paddleX : ℚ := if isLeft then 20 else WIDTH - 30
  (if isLeft then
     decide (b.x - 10 ≤ paddleX + 10) && decide (b.x > paddleX)
   else
     decide (b.x + 10 ≥ paddleX) && decide (b.x < paddleX + 10)) &&
  decide (b.y ≥ paddleY - 10) &&
  decide (b.y ≤ paddleY + PADDLE_HEIGHT + 10)

/-- One iteration of the `playerIds.forEach` paddle loop: on a hit,
invert `vx` and recompute `vy` from the normalised hit position. -/
def applyPaddle (isLeft : Bool) (paddleY : ℚ) (b : Ball) : Ball :=
  if hitCond isLeft paddleY b then
    let hitPos := (b.y - paddleY) / PADDLE_HEIGHT
    { b with vx := -b.vx, vy := (hitPos - 1/2) * 8 }
  else b

/-- The whole `playerIds.forEach((id, index) => ...)` paddle loop:
index 0 is the left paddle, every later index the right plane. -/
def applyPaddles (players : List Player) (b : Ball) : Ball :=
  (players.foldl
    (fun (acc : Ball × Nat) p => (applyPaddle (acc.2 == 0) p.paddle acc.1, acc.2 + 1))
    (b, 0)).1

/-- The ball after the integration, wall-bounce and paddle phases of
one tick. -/
def ballAfterPhysics (players : List Player) (b : Ball) : Ball :=
  applyPaddles players (wallBounce (integrate b))

/-- `gameState.score[scorer]++` : bump the score of the player whose
key is `q` (keys are unique in a JavaScript object). -/
def incScore (q : String) (l : List Player) : List Player :=
  l.map fun p => if p.pid = q then { p with score := p.score + 1 } else p

/-- One execution of the 60 FPS `setInterval` callback installed by
`startGame()`: early-out unless playing, then integration, wall bounce,
paddle loop, and the debounced scoring branch (set
`ballResetInProgress`, award the point to the slot opposite the exit
side, run `checkWinner()`, and unless the game just ended schedule the
deferred respawn). -/
def tick (s : ServerState) : ServerState :=
  if s.gs.gameStarted = false ∨ s.gs.gameEnded = true then s
  else
    let b := ballAfterPhysics s.gs.players s.gs.ball
    let s1 : ServerState := { s with gs := { s.gs with ball := b } }
    if (b.x < -10 ∨ b.x > WIDTH + 10) ∧ s.ballResetInProgress = false then
      let s2 : ServerState := { s1 with ballResetInProgress := true }
      match (if b.x < -10 then s.gs.players.get? 1 else s.gs.players.get? 0) with
      | some sc =>
          let s3 : ServerState :=
            { s2 with gs := { s2.gs with players := incScore sc.pid s2.gs.players } }
          let res := checkWinner s3
          if res.2 then res.1
          else { res.1 with pendingRespawn := res.1.pendingRespawn + 1 }
      | none => { s2 with pendingRespawn := s2.pendingRespawn + 1 }
    else s1

/-- `stopGame()`: clear both phase flags and the winner, recentre the
ball with zero velocity, clear the debounce flag and the interval. -/
def stopGame (s : ServerState) : ServerState :=
  { s with
    gs := { s.gs with
      gameStarted := false
      gameEnded := false
      winner := none
      ball := { x := WIDTH / 2, y := HEIGHT / 2, vx := 0, vy := 0 } }
    ballResetInProgress := false
    intervalRunning := false }

/-- Number of `true` values in `gameState.playersReady`. -/
def readyCount (l : List Player) : Nat :=
  (l.filter fun p => p.ready).length

/-- The start condition tested by `checkGameStart()`. -/
def canStart (s : ServerState) : Bool :=
  decide (2 ≤ s.gs.players.length) &&
  decide (2 ≤ readyCount s.gs.players) &&
  !s.gs.gameStarted && !s.gs.gameEnded

/-- `startGame()`: reset end flags and the debounce flag, zero all
scores, serve the ball, raise `gameStarted` and (re)install the
interval. -/
def startGame (coin : Bool) (r : ℚ) (s : ServerState) : ServerState :=
  let s1 : ServerState :=
    { s with
      gs := { s.gs with
        gameEnded := false
        winner := none
        players := resetScores s.gs.players }
      ballResetInProgress := false }
  let s2 := resetBall coin r s1
  { s2 with gs := { s2.gs with gameStarted := true }, intervalRunning := true }

/-- `checkGameStart()`: start the game when the start condition holds. -/
def checkGameStart (coin : Bool) (r : ℚ) (s : ServerState) : ServerState :=
  if canStart s then startGame coin r s else s

/-- `gameState.playersReady[pid] = true` (the shared first line of the
`startGame` and `playAgain` socket handlers). -/
def setReady (pid : String) (l : List Player) : List Player :=
  l.map fun p => if p.pid = pid then { p with ready := true } else p

/-- The `connection` handler body: give the new session a centred
paddle, a zero score and a cleared ready flag, and bump `playerCount`.
There is no capacity check of any kind. -/
def onConnect (pid : String) (s : ServerState) : ServerState :=
  { s with
    gs := { s.gs with
      players := s.gs.players ++
        [{ pid := pid
           paddle := HEIGHT / 2 - PADDLE_HEIGHT / 2
           score := 0
           ready := false }]
      playerCount := s.gs.playerCount + 1 } }

/-- The `paddleMove` handler: ignored unless playing; otherwise step
the sender's paddle by `PADDLE_SPEED`, clamped at the board edges. -/
def onPaddleMove (pid : String) (up : Bool) (s : ServerState) : ServerState :=
  if s.gs.gameStarted = false then s
  else
    { s with
      gs := { s.gs with
        players := s.gs.players.map fun p =>
          if p.pid = pid then
            { p with paddle :=
                if up then max 0 (p.paddle - PADDLE_SPEED)
                else min (HEIGHT - PADDLE_HEIGHT) (p.paddle + PADDLE_SPEED) }
          else p } }

/-- The `paddlePosition` handler: ignored unless playing; otherwise
store the sent position clamped to the board. -/
def onPaddlePos (pid : String) (y : ℚ) (s : ServerState) : ServerState :=
  if s.gs.gameStarted = false then s
  else
    { s with
      gs := { s.gs with
        players := s.gs.players.map fun p =>
          if p.pid = pid then
            { p with paddle := max 0 (min (HEIGHT - PADDLE_HEIGHT) y) }
          else p } }

/-- The `startGame` socket handler: mark the sender ready, then
`checkGameStart()`. -/
def onStartGameEvt (pid : String) (coin : Bool) (r : ℚ) (s : ServerState) :
    ServerState :=
  checkGameStart coin r
    { s with gs := { s.gs with players := setReady pid s.gs.players } }

/-- The `playAgain` socket handler: mark the sender ready, clear the
end-of-game marker if set, then `checkGameStart()`. -/
def onPlayAgain (pid : String) (coin : Bool) (r : ℚ) (s : ServerState) :
    ServerState :=
  let s1 : ServerState :=
    { s with gs := { s.gs with players := setReady pid s.gs.players } }
  let s2 : ServerState :=
    if s1.gs.gameEnded then
      { s1 with gs := { s1.gs with gameEnded := false, winner := none } }
    else s1
  checkGameStart coin r s2

/-- The `disconnect` handler: drop the session's three map entries,
decrement `playerCount`, and when fewer than two players remain call
`stopGame()` and clear every remaining ready flag. -/
def onDisconnect (pid : String) (s : ServerState) : ServerState :=
  let players' := s.gs.players.filter fun p => p.pid != pid
  let cnt := s.gs.playerCount - 1
  let s1 : ServerState :=
    { s with gs := { s.gs with players := players', playerCount := cnt } }
  if cnt < 2 then
    let s2 := stopGame s1
    { s2 with gs := { s2.gs with
        players := s2.gs.players.map fun p => { p with ready := false } } }
  else s1

/-- The body of the `setTimeout` callback scheduled by the scoring
branch: one pending respawn is consumed, and the ball is reset only
when the game has not ended. -/
def respawnFire (coin : Bool) (r : ℚ) (s : ServerState) : ServerState :=
  let s1 : ServerState := { s with pendingRespawn := s.pendingRespawn - 1 }
  if s1.gs.gameEnded then s1 else resetBall coin r s1

/-- Every externally triggered state transition of the server. -/
inductive Op where
  | connect (pid : String)
  | disconnect (pid : String)
  | startEvt (pid : String) (coin : Bool) (r : ℚ)
  | playAgain (pid : String) (coin : Bool) (r : ℚ)
  | paddleMove (pid : String) (up : Bool)
  | paddlePos (pid : String) (y : ℚ)
  | tickOp
  | respawnFire (coin : Bool) (r : ℚ)
deriving DecidableEq, Repr

/-- Dispatch an operation to its handler. -/
def applyOp : Op → ServerState → ServerState
  | .connect pid, s => onConnect pid s
  | .disconnect pid, s => onDisconnect pid s
  | .startEvt pid coin r, s => onStartGameEvt pid coin r s
  | .playAgain pid coin r, s => onPlayAgain pid coin r s
  | .paddleMove pid up, s => onPaddleMove pid up s
  | .paddlePos pid y, s => onPaddlePos pid y s
  | .tickOp, s => tick s
  | .respawnFire coin r, s => respawnFire coin r s

/-- Environment guard for an operation: socket ids are fresh on
connect, every other socket event comes from a connected socket, the
interval callback fires only while installed, and a respawn callback
fires only if scheduled. -/
def opOk : Op → ServerState → Bool
  | .connect pid, s => !(s.gs.players.any fun p => p.pid == pid)
  | .disconnect pid, s => s.gs.players.any fun p => p.pid == pid
  | .startEvt pid _ _, s => s.gs.players.any fun p => p.pid == pid
  | .playAgain pid _ _, s => s.gs.players.any fun p => p.pid == pid
  | .paddleMove pid _, s => s.gs.players.any fun p => p.pid == pid
  | .paddlePos pid _, s => s.gs.players.any fun p => p.pid == pid
  | .tickOp, s => s.intervalRunning
  | .respawnFire _ _, s => decide (1 ≤ s.pendingRespawn)

/-- The server states reachable from process start through guarded
operations. -/
inductive Reachable : ServerState → Prop where
  | init : Reachable initState
  | step {s : ServerState} (op : Op) (hs : Reachable s) (hok : opOk op s = true) :
      Reachable (applyOp op s)

/-- Run a list of operations left to right. -/
def applyOps : List Op → ServerState → ServerState
  | [], s => s
  | op :: rest, s => applyOps rest (applyOp op s)

/-- All guards hold along a run. -/
def opsOk : List Op → ServerState → Bool
  | [], _ => true
  | op :: rest, s => opOk op s && opsOk rest (applyOp op s)

/-- Combined auxiliary invariant: session ids are pairwise distinct, and
every session beyond the first two in join order has score zero. -/
def stateInv (s : ServerState) : Prop :=
  (s.gs.players.map Player.pid).Nodup ∧ ∀ p ∈ s.gs.players.drop 2, p.score = 0

/-- Recognizer for rematch requests, used to state that a run contains
none. -/
def Op.isPlayAgain : Op → Bool
  | .playAgain _ _ _ => true
  | _ => false

/-- Concrete run: two sessions join, both ready up (the serve drawn
with `coin = true`, `r = 1/2`, i.e. velocity `(5, 0)`), and the right
player parks their paddle at the top edge so the serve can pass. -/
def bootOps : List Op :=
  [Op.connect "a", Op.connect "b", Op.startEvt "a" true (1/2),
   Op.startEvt "b" true (1/2), Op.paddlePos "b" 0]

/-- The state after `bootOps` and after each completed point of the
concrete run: fresh serve from the centre, `"a"` leading `k : 0`. -/
def midState (k : Nat) : ServerState :=
  { gs :=
      { ball := { x := 400, y := 300, vx := 5, vy := 0 }
        players := [{ pid := "a", paddle := 250, score := k, ready := true },
                    { pid := "b", paddle := 0, score := 0, ready := true }]
        playerCount := 2
        gameStarted := true
        gameEnded := false
        winner := none }
    ballResetInProgress := false
    intervalRunning := true
    pendingRespawn := 0
    emittedGameWon := 0 }

/-- One full point of the concrete run: 83 ticks carry the serve past
the right boundary (at x = 815 > 810), then the scheduled respawn
fires. -/
def pointOps : List Op :=
  List.replicate 83 Op.tickOp ++ [Op.respawnFire true (1/2)]

/-- The ticks of a point without the respawn (used for the final,
match-winning point, after which no respawn is scheduled). -/
def lastPointOps : List Op :=
  List.replicate 83 Op.tickOp

/-- A complete match: boot, ten full points for `"a"`, and the
match-winning eleventh point.  Contains no `playAgain` operation. -/
def c3Trace : List Op :=
  bootOps ++ (pointOps ++ (pointOps ++ (pointOps ++ (pointOps ++
    (pointOps ++ (pointOps ++ (pointOps ++ (pointOps ++ (pointOps ++
      (pointOps ++ lastPointOps))))))))))

/-- The state at the end of `c3Trace`: match over, winner `"a"`, and —
because neither `startGame()` nor `checkWinner()` ever clears
`playersReady` — both ready flags still `true` from before the match. -/
def c3EndState : ServerState :=
  { gs :=
      { ball := { x := 815, y := 300, vx := 5, vy := 0 }
        players := [{ pid := "a", paddle := 250, score := 11, ready := true },
                    { pid := "b", paddle := 0, score := 0, ready := true }]
        playerCount := 2
        gameStarted := false
        gameEnded := true
        winner := some "a" }
    ballResetInProgress := true
    intervalRunning := false
    pendingRespawn := 0
    emittedGameWon := 1 }

/-- The state after `bootOps` plus 83 ticks: a point just scored, one
respawn callback pending, debounce flag set. -/
def c6ScoredState : ServerState :=
  { gs :=
      { ball := { x := 815, y := 300, vx := 5, vy := 0 }
        players := [{ pid := "a", paddle := 250, score := 1, ready := true },
                    { pid := "b", paddle := 0, score := 0, ready := true }]
        playerCount := 2
        gameStarted := true
        gameEnded := false
        winner := none }
    ballResetInProgress := true
    intervalRunning := true
    pendingRespawn := 1
    emittedGameWon := 0 }

/-- Concrete run for the stale-timer scenario: boot, one point scored
(scheduling a respawn), then the right player disconnects while the
respawn is still pending, forcing a reset to the lobby. -/
def c6Trace : List Op :=
  bootOps ++ (lastPointOps ++ [Op.disconnect "b"])

/-- The state at the end of `c6Trace`: back in the lobby (both phase
flags false), ball centred with zero velocity — but the respawn
callback scheduled before the disconnect is still pending. -/
def c6LobbyState : ServerState :=
  { gs :=
      { ball := { x := 400, y := 300, vx := 0, vy := 0 }
        players := [{ pid := "a", paddle := 250, score := 1, ready := false }]
        playerCount := 1
        gameStarted := false
        gameEnded := false
        winner := none }
    ballResetInProgress := false
    intervalRunning := false
    pendingRespawn := 1
    emittedGameWon := 0 }

/-- Concrete run: just two sessions connecting. -/
def c8Ops : List Op := [Op.connect "a", Op.connect "b"]

/-- The state after `c8Ops`: both competitive slots bound. -/
def c8TwoState : ServerState :=
  { gs :=
      { ball := { x := 400, y := 300, vx := 0, vy := 0 }
        players := [{ pid := "a", paddle := 250, score := 0, ready := false },
                    { pid := "b", paddle := 250, score := 0, ready := false }]
        playerCount := 2
        gameStarted := false
        gameEnded := false
        winner := none }
    ballResetInProgress := false
    intervalRunning := false
    pendingRespawn := 0
    emittedGameWon := 0 }

/-- Concrete playing state whose next tick carries the ball past the
left boundary (to x = -17), with the right slot at score 0. -/
def c1State : ServerState :=
  { gs :=
      { ball := { x := -12, y := 300, vx := -5, vy := 0 }
        players := [{ pid := "a", paddle := 250, score := 3, ready := true },
                    { pid := "b", paddle := 250, score := 0, ready := true }]
        playerCount := 2
        gameStarted := true
        gameEnded := false
        winner := none }
    ballResetInProgress := false
    intervalRunning := true
    pendingRespawn := 0
    emittedGameWon := 0 }

/-- Concrete state in which the first player has just reached the
winning score, as seen by `checkWinner()` inside the scoring branch. -/
def c2WinState : ServerState :=
  { gs :=
      { ball := { x := 815, y := 300, vx := 5, vy := 0 }
        players := [{ pid := "a", paddle := 250, score := 11, ready := true },
                    { pid := "b", paddle := 0, score := 0, ready := true }]
        playerCount := 2
        gameStarted := true
        gameEnded := false
        winner := none }
    ballResetInProgress := true
    intervalRunning := true
    pendingRespawn := 0
    emittedGameWon := 0 }

/-- Concrete playing state: the ball sits just left of the left
paddle's slab moving rightward (away from the left paddle); the next
tick puts it at x = 23, inside the slab. -/
def c5State : ServerState :=
  { gs :=
      { ball := { x := 18, y := 300, vx := 5, vy := 0 }
        players := [{ pid := "a", paddle := 250, score := 0, ready := true },
                    { pid := "b", paddle := 250, score := 0, ready := true }]
        playerCount := 2
        gameStarted := true
        gameEnded := false
        winner := none }
    ballResetInProgress := false
    intervalRunning := true
    pendingRespawn := 0
    emittedGameWon := 0 }

theorem reachable_applyOps {s : ServerState} (ops : List Op)
    (hs : Reachable s) (hok : opsOk ops s = true) :
    Reachable (applyOps ops s) := by
  induction ops generalizing s with
  | nil => exact hs
  | cons op rest ih =>
      simp only [opsOk, Bool.and_eq_true] at hok
      exact ih (Reachable.step op hs hok.1) hok.2

theorem applyOps_append (xs ys : List Op) (s : ServerState) :
    applyOps (xs ++ ys) s = applyOps ys (applyOps xs s) := by
  induction xs generalizing s with
  | nil => rfl
  | cons op rest ih => simp [applyOps, ih]

theorem opsOk_append (xs ys : List Op) (s : ServerState) :
    opsOk (xs ++ ys) s = (opsOk xs s && opsOk ys (applyOps xs s)) := by
  induction xs generalizing s with
  | nil => simp [opsOk, applyOps]
  | cons op rest ih => simp [opsOk, applyOps, ih, Bool.and_assoc]

theorem tick_not_playing {s : ServerState}
    (h : s.gs.gameStarted = false ∨ s.gs.gameEnded = true) : tick s = s := by
  unfold tick
  rw [if_pos h]

theorem checkWinner_preserves (s : ServerState) :
    (checkWinner s).1.gs.ball = s.gs.ball ∧
    (checkWinner s).1.gs.players = s.gs.players ∧
    (checkWinner s).1.ballResetInProgress = s.ballResetInProgress := by
  unfold checkWinner
  split <;> exact ⟨rfl, rfl, rfl⟩

/-- C7 (confirmed): when the integrated ball lies within the fixed
margin of the top or bottom boundary, the wall-reflection step flips
the sign of `vy` exactly, keeping its magnitude and touching nothing
else (position and `vx` are unchanged by the step). -/
theorem wall_bounce_is_elastic (b : Ball)
    (h : (integrate b).y ≤ 10 ∨ (integrate b).y ≥ HEIGHT - 10) :
    (wallBounce (integrate b)).vy = -(integrate b).vy ∧
    |(wallBounce (integrate b)).vy| = |(integrate b).vy| ∧
    (wallBounce (integrate b)).x = (integrate b).x ∧
    (wallBounce (integrate b)).y = (integrate b).y ∧
    (wallBounce (integrate b)).vx = (integrate b).vx := by
  unfold wallBounce
  rw [if_pos h]
  exact ⟨rfl, abs_neg _, rfl, rfl, rfl⟩

theorem wall_bounce_is_elastic_witness :
    ((integrate { x := 400, y := 2, vx := 5, vy := -3 }).y ≤ 10 ∨
      (integrate { x := 400, y := 2, vx := 5, vy := -3 }).y ≥ HEIGHT - 10) ∧
    (wallBounce (integrate { x := 400, y := 2, vx := 5, vy := -3 })).vy =
      -(integrate { x := 400, y := 2, vx := 5, vy := -3 }).vy :=
  ⟨by with_unfolding_all decide,
   (wall_bounce_is_elastic { x := 400, y := 2, vx := 5, vy := -3 }
     (by with_unfolding_all decide)).1⟩

/-- C8 counterexample: after two sessions are bound (a reachable
state), a third connection does not fail — it is given its own paddle,
score and ready entries and bumps the player count to 3. -/
theorem third_connection_gets_slot_cex :
    Reachable c8TwoState ∧
    c8TwoState.gs.players.length = 2 ∧
    (onConnect "c" c8TwoState).gs.players.map Player.pid = ["a", "b", "c"] ∧
    ((onConnect "c" c8TwoState).gs.players.get? 2).map Player.score = some 0 ∧
    ((onConnect "c" c8TwoState).gs.players.get? 2).map Player.ready = some false ∧
    (onConnect "c" c8TwoState).gs.playerCount = 3 := by
  refine ⟨?_, ?_, ?_, ?_, ?_, ?_⟩
  · have h := reachable_applyOps c8Ops Reachable.init (by with_unfolding_all decide)
    have he : applyOps c8Ops initState = c8TwoState := by with_unfolding_all decide
    rwa [he] at h
  all_goals with_unfolding_all decide

/-- C8 amended: `onConnect` never rejects.  Every connecting session is
appended to the join-order list — taking the next (first unbound) slot
index — with a centred paddle, zero score and cleared ready flag; the
player count increments and no existing entry or phase flag changes. -/
theorem connect_always_binds (s : ServerState) (pid : String) :
    (onConnect pid s).gs.players.length = s.gs.players.length + 1 ∧
    (onConnect pid s).gs.players.get? s.gs.players.length =
      some { pid := pid, paddle := HEIGHT / 2 - PADDLE_HEIGHT / 2,
             score := 0, ready := false } ∧
    (∀ i, i < s.gs.players.length →
      (onConnect pid s).gs.players.get? i = s.gs.players.get? i) ∧
    (onConnect pid s).gs.playerCount = s.gs.playerCount + 1 ∧
    (onConnect pid s).gs.gameStarted = s.gs.gameStarted ∧
    (onConnect pid s).gs.gameEnded = s.gs.gameEnded ∧
    (onConnect pid s).gs.ball = s.gs.ball := by
  refine ⟨by simp [onConnect], ?_, ?_, rfl, rfl, rfl, rfl⟩
  · exact List.get?_concat_length _ _
  · intro i hi
    exact List.get?_append hi

theorem connect_always_binds_witness :
    (onConnect "c" c8TwoState).gs.players.length = 3 ∧
    (onConnect "c" c8TwoState).gs.players.get? 2 =
      some { pid := "c", paddle := HEIGHT / 2 - PADDLE_HEIGHT / 2,
             score := 0, ready := false } ∧
    (onConnect "c" c8TwoState).gs.players.get? 0 = c8TwoState.gs.players.get? 0 :=
  ⟨(connect_always_binds c8TwoState "c").1,
   (connect_always_binds c8TwoState "c").2.1,
   (connect_always_binds c8TwoState "c").2.2.1 0 (by decide)⟩

/-- C4 (confirmed): whenever a disconnect leaves fewer than two live
sessions, the phase returns to Lobby unconditionally — both phase flags
cleared, physics timer stopped, ball recentred with zero velocity,
winner and debounce flag cleared, and every remaining session's ready
flag cleared. -/
theorem disconnect_below_two_forces_lobby (s : ServerState) (pid : String)
    (h : s.gs.playerCount - 1 < 2) :
    (onDisconnect pid s).gs.gameStarted = false ∧
    (onDisconnect pid s).gs.gameEnded = false ∧
    (onDisconnect pid s).intervalRunning = false ∧
    (onDisconnect pid s).gs.ball =
      { x := WIDTH / 2, y := HEIGHT / 2, vx := 0, vy := 0 } ∧
    (∀ p ∈ (onDisconnect pid s).gs.players, p.ready = false) ∧
    (onDisconnect pid s).gs.winner = none ∧
    (onDisconnect pid s).ballResetInProgress = false := by
  simp only [onDisconnect]
  rw [if_pos h]
  refine ⟨rfl, rfl, rfl, rfl, ?_, rfl, rfl⟩
  intro p hp
  rcases List.mem_map.mp hp with ⟨q, _, rfl⟩
  rfl

theorem disconnect_below_two_forces_lobby_witness :
    c6ScoredState.gs.playerCount - 1 < 2 ∧
    (onDisconnect "b" c6ScoredState).gs.gameStarted = false ∧
    (onDisconnect "b" c6ScoredState).gs.gameEnded = false ∧
    (onDisconnect "b" c6ScoredState).intervalRunning = false ∧
    (onDisconnect "b" c6ScoredState).gs.ball =
      { x := WIDTH / 2, y := HEIGHT / 2, vx := 0, vy := 0 } :=
  ⟨by decide,
   (disconnect_below_two_forces_lobby c6ScoredState "b" (by decide)).1,
   (disconnect_below_two_forces_lobby c6ScoredState "b" (by decide)).2.1,
   (disconnect_below_two_forces_lobby c6ScoredState "b" (by decide)).2.2.1,
   (disconnect_below_two_forces_lobby c6ScoredState "b" (by decide)).2.2.2.1⟩

set_option maxRecDepth 40000 in
theorem boot_run : applyOps bootOps initState = midState 0 := by
  with_unfolding_all decide

set_option maxRecDepth 40000 in
theorem boot_ok : opsOk bootOps initState = true := by
  with_unfolding_all decide

set_option maxRecDepth 40000 in
theorem scored_run : applyOps lastPointOps (midState 0) = c6ScoredState := by
  with_unfolding_all decide

set_option maxRecDepth 40000 in
theorem scored_ok : opsOk lastPointOps (midState 0) = true := by
  with_unfolding_all decide

theorem c6_disc_run :
    applyOp (Op.disconnect "b") c6ScoredState = c6LobbyState := by
  with_unfolding_all decide

theorem c6_disc_ok : opOk (Op.disconnect "b") c6ScoredState = true := by
  with_unfolding_all decide

theorem c6_run :
    applyOps c6Trace initState = c6LobbyState ∧ opsOk c6Trace initState = true := by
  constructor
  · unfold c6Trace
    rw [applyOps_append, boot_run, applyOps_append, scored_run]
    exact c6_disc_run
  · unfold c6Trace
    rw [opsOk_append, boot_run, boot_ok, opsOk_append, scored_run, scored_ok]
    simp only [opsOk, applyOps, Bool.and_true, Bool.true_and]
    rw [c6_disc_ok]

theorem c6_lobby_reachable : Reachable c6LobbyState := by
  have h := reachable_applyOps c6Trace Reachable.init c6_run.2
  rwa [c6_run.1] at h

/-- C6 counterexample: a reachable Lobby state produced by a forced
reset (disconnect during the respawn delay) still has the respawn
callback pending; when it fires, it is not a no-op — it re-randomizes
the ball's velocity (here from 0 to 5), because the callback checks
only `gameEnded`, not whether a forced reset happened. -/
theorem stale_respawn_fires_in_lobby_cex :
    Reachable c6LobbyState ∧
    c6LobbyState.gs.gameStarted = false ∧
    c6LobbyState.gs.gameEnded = false ∧
    c6LobbyState.pendingRespawn = 1 ∧
    c6LobbyState.gs.ball.vx = 0 ∧
    (respawnFire true (1/2) c6LobbyState).gs.ball.vx = 5 ∧
    ¬(respawnFire true (1/2) c6LobbyState).gs.ball = c6LobbyState.gs.ball := by
  refine ⟨c6_lobby_reachable, rfl, rfl, rfl, rfl, ?_, ?_⟩ <;>
    with_unfolding_all decide

/-- C6 amended: the deferred respawn callback re-checks only whether
the match has ended.  If `gameEnded` is set when it fires, it is a
no-op on the game state (only the pending-timer count is consumed);
otherwise — including after a forced reset back to Lobby — it respawns
the ball at the centre with a fresh random velocity and clears the
debounce flag. -/
theorem respawn_checks_only_game_ended (coin : Bool) (r : ℚ) (s : ServerState) :
    (s.gs.gameEnded = true →
      (respawnFire coin r s).gs = s.gs ∧
      (respawnFire coin r s).ballResetInProgress = s.ballResetInProgress ∧
      (respawnFire coin r s).pendingRespawn = s.pendingRespawn - 1) ∧
    (s.gs.gameEnded = false →
      (respawnFire coin r s).gs.ball =
        { x := WIDTH / 2, y := HEIGHT / 2,
          vx := if coin then 5 else -5, vy := (r - 1/2) * 6 } ∧
      (respawnFire coin r s).ballResetInProgress = false ∧
      (respawnFire coin r s).gs.gameStarted = s.gs.gameStarted ∧
      (respawnFire coin r s).gs.gameEnded = false ∧
      (respawnFire coin r s).gs.players = s.gs.players ∧
      (respawnFire coin r s).pendingRespawn = s.pendingRespawn - 1) := by
  constructor
  · intro h
    unfold respawnFire
    rw [if_pos h]
    exact ⟨rfl, rfl, rfl⟩
  · intro h
    unfold respawnFire
    rw [if_neg (by simp [h])]
    exact ⟨rfl, rfl, rfl, h, rfl, rfl⟩

theorem respawn_checks_only_game_ended_witness :
    (c3EndState.gs.gameEnded = true ∧
      (respawnFire true (1/2) c3EndState).gs = c3EndState.gs) ∧
    (c6LobbyState.gs.gameEnded = false ∧
      (respawnFire true (1/2) c6LobbyState).gs.ball =
        { x := WIDTH / 2, y := HEIGHT / 2,
          vx := if true then 5 else -5, vy := ((1:ℚ)/2 - 1/2) * 6 }) :=
  ⟨⟨rfl, ((respawn_checks_only_game_ended true (1/2) c3EndState).1 rfl).1⟩,
   ⟨rfl, ((respawn_checks_only_game_ended true (1/2) c6LobbyState).2 rfl).1⟩⟩

theorem scoring_tail_players (X : ServerState × Bool) (n : Nat) :
    (if X.2 = true then X.1 else { X.1 with pendingRespawn := n }).gs.players =
      X.1.gs.players := by
  split <;> rfl

theorem scoring_tail_flag (X : ServerState × Bool) (n : Nat) :
    (if X.2 = true then X.1
     else { X.1 with pendingRespawn := n }).ballResetInProgress =
      X.1.ballResetInProgress := by
  split <;> rfl

theorem scoring_tail_ball (X : ServerState × Bool) (n : Nat) :
    (if X.2 = true then X.1 else { X.1 with pendingRespawn := n }).gs.ball =
      X.1.gs.ball := by
  split <;> rfl

theorem get?_incScore (q : String) (l : List Player) (i : Nat) :
    (incScore q l).get? i = (l.get? i).map
      (fun p => if p.pid = q then { p with score := p.score + 1 } else p) := by
  unfold incScore
  exact List.get?_map _ _ _

theorem tick_scoring (s : ServerState) {sc : Player}
    (hst : s.gs.gameStarted = true) (hend : s.gs.gameEnded = false)
    (hflag : s.ballResetInProgress = false)
    (hout : (ballAfterPhysics s.gs.players s.gs.ball).x < -10 ∨
      (ballAfterPhysics s.gs.players s.gs.ball).x > WIDTH + 10)
    (hsc : (if (ballAfterPhysics s.gs.players s.gs.ball).x < -10
            then s.gs.players.get? 1 else s.gs.players.get? 0) = some sc) :
    (tick s).gs.players = incScore sc.pid s.gs.players ∧
    (tick s).ballResetInProgress = true ∧
    (tick s).gs.ball = ballAfterPhysics s.gs.players s.gs.ball := by
  unfold tick
  dsimp only
  rw [if_neg (by simp [hst, hend]), if_pos (And.intro hout hflag), hsc]
  refine ⟨?_, ?_, ?_⟩
  · rw [scoring_tail_players]
    exact (checkWinner_preserves _).2.1
  · rw [scoring_tail_flag]
    exact (checkWinner_preserves _).2.2
  · rw [scoring_tail_ball]
    exact (checkWinner_preserves _).1

theorem tick_ball {s : ServerState} (hst : s.gs.gameStarted = true)
    (hend : s.gs.gameEnded = false) :
    (tick s).gs.ball = ballAfterPhysics s.gs.players s.gs.ball := by
  unfold tick
  dsimp only
  rw [if_neg (by simp [hst, hend])]
  split
  · split
    · rw [scoring_tail_ball]
      exact (checkWinner_preserves _).1
    · rfl
  · rfl

theorem tick_players_eq_of_flag {s : ServerState}
    (hflag : s.ballResetInProgress = true) :
    (tick s).gs.players = s.gs.players ∧ (tick s).ballResetInProgress = true := by
  unfold tick
  dsimp only
  split
  · exact ⟨rfl, hflag⟩
  · rw [if_neg (by simp [hflag])]
    exact ⟨rfl, hflag⟩

theorem pid_ne_of_nodup {l : List Player} (hnd : (l.map Player.pid).Nodup)
    {i j : Nat} {p q : Player} (hp : l.get? i = some p) (hq : l.get? j = some q)
    (hij : i ≠ j) : p.pid ≠ q.pid := by
  intro hpq
  have hi : (l.map Player.pid).get? i = some p.pid := by
    rw [List.get?_map, hp]
    rfl
  have hj : (l.map Player.pid).get? j = some q.pid := by
    rw [List.get?_map, hq]
    rfl
  rcases List.get?_eq_some.mp hi with ⟨hlt, _⟩
  exact hij (List.get?_inj hlt hnd (by rw [hi, hj, hpq]))

/-- C1 (confirmed): in a Playing tick with the debounce flag clear,
when the ball exits past a horizontal boundary beyond the 10-unit
margin, the flag is set and exactly the slot opposite the exit side
gains exactly one point (all other scores unchanged); and in any tick
entered with the flag set, no score changes and the flag stays set —
within the tick loop only the respawn action clears it. -/
theorem scoring_exactly_once_per_excursion (s : ServerState)
    (hnd : (s.gs.players.map Player.pid).Nodup)
    (hst : s.gs.gameStarted = true) (hend : s.gs.gameEnded = false) :
    (∀ sc, s.ballResetInProgress = false →
      s.gs.players.get? 1 = some sc →
      (ballAfterPhysics s.gs.players s.gs.ball).x < -10 →
      (tick s).ballResetInProgress = true ∧
      ((tick s).gs.players.get? 1).map Player.score = some (sc.score + 1) ∧
      ∀ i, i ≠ 1 → ((tick s).gs.players.get? i).map Player.score =
        (s.gs.players.get? i).map Player.score) ∧
    (∀ sc, s.ballResetInProgress = false →
      s.gs.players.get? 0 = some sc →
      (ballAfterPhysics s.gs.players s.gs.ball).x > WIDTH + 10 →
      (tick s).ballResetInProgress = true ∧
      ((tick s).gs.players.get? 0).map Player.score = some (sc.score + 1) ∧
      ∀ i, i ≠ 0 → ((tick s).gs.players.get? i).map Player.score =
        (s.gs.players.get? i).map Player.score) ∧
    (s.ballResetInProgress = true →
      (tick s).gs.players = s.gs.players ∧ (tick s).ballResetInProgress = true) := by
  refine ⟨?_, ?_, fun hflag => tick_players_eq_of_flag hflag⟩
  · intro sc hflag hsc hx
    have hts := tick_scoring s hst hend hflag (Or.inl hx)
      (by rw [if_pos hx]; exact hsc)
    refine ⟨hts.2.1, ?_, ?_⟩
    · rw [hts.1, get?_incScore, hsc]
      simp
    · intro i hi
      rw [hts.1, get?_incScore]
      cases hqi : s.gs.players.get? i with
      | none => simp
      | some q =>
          have hne : q.pid ≠ sc.pid := pid_ne_of_nodup hnd hqi hsc hi
          simp [hne]
  · intro sc hflag hsc hx
    have hnx : ¬(ballAfterPhysics s.gs.players s.gs.ball).x < -10 := by
      have hw : (-10 : ℚ) < WIDTH + 10 := by norm_num [WIDTH]
      intro hcon
      linarith
    have hts := tick_scoring s hst hend hflag (Or.inr hx)
      (by rw [if_neg hnx]; exact hsc)
    refine ⟨hts.2.1, ?_, ?_⟩
    · rw [hts.1, get?_incScore, hsc]
      simp
    · intro i hi
      rw [hts.1, get?_incScore]
      cases hqi : s.gs.players.get? i with
      | none => simp
      | some q =>
          have hne : q.pid ≠ sc.pid := pid_ne_of_nodup hnd hqi hsc hi
          simp [hne]

theorem scoring_exactly_once_per_excursion_witness :
    (tick c1State).ballResetInProgress = true ∧
    ((tick c1State).gs.players.get? 1).map Player.score = some (0 + 1) ∧
    ((tick c1State).gs.players.get? 0).map Player.score =
      (c1State.gs.players.get? 0).map Player.score := by
  have h := (scoring_exactly_once_per_excursion c1State (by decide) rfl rfl).1
    { pid := "b", paddle := 250, score := 0, ready := true } rfl rfl
    (by with_unfolding_all decide)
  exact ⟨h.1, h.2.1, h.2.2 0 (by decide)⟩

set_option maxRecDepth 40000 in
theorem point_run_0 : applyOps pointOps (midState 0) = midState 1 := by
  with_unfolding_all decide

set_option maxRecDepth 40000 in
theorem point_run_1 : applyOps pointOps (midState 1) = midState 2 := by
  with_unfolding_all decide

set_option maxRecDepth 40000 in
theorem point_run_2 : applyOps pointOps (midState 2) = midState 3 := by
  with_unfolding_all decide

set_option maxRecDepth 40000 in
theorem point_run_3 : applyOps pointOps (midState 3) = midState 4 := by
  with_unfolding_all decide

set_option maxRecDepth 40000 in
theorem point_run_4 : applyOps pointOps (midState 4) = midState 5 := by
  with_unfolding_all decide

set_option maxRecDepth 40000 in
theorem point_run_5 : applyOps pointOps (midState 5) = midState 6 := by
  with_unfolding_all decide

set_option maxRecDepth 40000 in
theorem point_run_6 : applyOps pointOps (midState 6) = midState 7 := by
  with_unfolding_all decide

set_option maxRecDepth 40000 in
theorem point_run_7 : applyOps pointOps (midState 7) = midState 8 := by
  with_unfolding_all decide

set_option maxRecDepth 40000 in
theorem point_run_8 : applyOps pointOps (midState 8) = midState 9 := by
  with_unfolding_all decide

set_option maxRecDepth 40000 in
theorem point_run_9 : applyOps pointOps (midState 9) = midState 10 := by
  with_unfolding_all decide

set_option maxRecDepth 40000 in
theorem point_ok_0 : opsOk pointOps (midState 0) = true := by
  with_unfolding_all decide

set_option maxRecDepth 40000 in
theorem point_ok_1 : opsOk pointOps (midState 1) = true := by
  with_unfolding_all decide

set_option maxRecDepth 40000 in
theorem point_ok_2 : opsOk pointOps (midState 2) = true := by
  with_unfolding_all decide

set_option maxRecDepth 40000 in
theorem point_ok_3 : opsOk pointOps (midState 3) = true := by
  with_unfolding_all decide

set_option maxRecDepth 40000 in
theorem point_ok_4 : opsOk pointOps (midState 4) = true := by
  with_unfolding_all decide

set_option maxRecDepth 40000 in
theorem point_ok_5 : opsOk pointOps (midState 5) = true := by
  with_unfolding_all decide

set_option maxRecDepth 40000 in
theorem point_ok_6 : opsOk pointOps (midState 6) = true := by
  with_unfolding_all decide

set_option maxRecDepth 40000 in
theorem point_ok_7 : opsOk pointOps (midState 7) = true := by
  with_unfolding_all decide

set_option maxRecDepth 40000 in
theorem point_ok_8 : opsOk pointOps (midState 8) = true := by
  with_unfolding_all decide

set_option maxRecDepth 40000 in
theorem point_ok_9 : opsOk pointOps (midState 9) = true := by
  with_unfolding_all decide

set_option maxRecDepth 40000 in
theorem last_run : applyOps lastPointOps (midState 10) = c3EndState := by
  with_unfolding_all decide

set_option maxRecDepth 40000 in
theorem last_ok : opsOk lastPointOps (midState 10) = true := by
  with_unfolding_all decide

theorem c3_run :
    applyOps c3Trace initState = c3EndState ∧ opsOk c3Trace initState = true := by
  constructor
  · unfold c3Trace
    simp only [applyOps_append]
    rw [boot_run, point_run_0, point_run_1, point_run_2, point_run_3, point_run_4,
      point_run_5, point_run_6, point_run_7, point_run_8, point_run_9]
    exact last_run
  · unfold c3Trace
    simp only [opsOk_append]
    rw [boot_run, point_run_0, point_run_1, point_run_2, point_run_3, point_run_4,
      point_run_5, point_run_6, point_run_7, point_run_8, point_run_9]
    rw [boot_ok, point_ok_0, point_ok_1, point_ok_2, point_ok_3, point_ok_4,
      point_ok_5, point_ok_6, point_ok_7, point_ok_8, point_ok_9, last_ok]
    rfl

theorem c3_end_reachable : Reachable c3EndState := by
  have h := reachable_applyOps c3Trace Reachable.init c3_run.2
  rwa [c3_run.1] at h

/-- C2 counterexample: the state right after the match-winning tick of
a fully simulated (reachable) match is Ended — winner recorded, timer
stopped, `gameWon` emitted once — yet the ball's velocity is not
zeroed: `vx` is still 5.  `checkWinner()` never touches the ball. -/
theorem win_does_not_zero_velocity_cex :
    Reachable c3EndState ∧
    c3EndState.gs.gameEnded = true ∧
    c3EndState.gs.gameStarted = false ∧
    c3EndState.gs.winner = some "a" ∧
    c3EndState.intervalRunning = false ∧
    c3EndState.emittedGameWon = 1 ∧
    c3EndState.gs.ball.vx = 5 ∧
    c3EndState.gs.ball.vx ≠ 0 := by
  refine ⟨c3_end_reachable, rfl, rfl, rfl, rfl, rfl, rfl, ?_⟩
  with_unfolding_all decide

/-- C2 amended: when a slot's score is at or above the winning
threshold, `checkWinner` transitions to Ended — winner recorded
(first such slot in join order), physics timer stopped, `gameWon`
emitted once — and afterwards a tick is a complete no-op, so the
emission happens exactly once and physics never mutates the ball
again; but the ball (velocity included) is left exactly as it was, not
zeroed. -/
theorem win_transition_actions (s : ServerState) (w : Player)
    (hw : s.gs.players.find? (fun p => decide (WINNING_SCORE ≤ p.score)) = some w) :
    (checkWinner s).2 = true ∧
    (checkWinner s).1.gs.gameEnded = true ∧
    (checkWinner s).1.gs.gameStarted = false ∧
    (checkWinner s).1.gs.winner = some w.pid ∧
    (checkWinner s).1.intervalRunning = false ∧
    (checkWinner s).1.emittedGameWon = s.emittedGameWon + 1 ∧
    (checkWinner s).1.gs.ball = s.gs.ball ∧
    (∀ t : ServerState, t.gs.gameEnded = true → tick t = t) := by
  unfold checkWinner
  rw [hw]
  exact ⟨rfl, rfl, rfl, rfl, rfl, rfl, rfl,
    fun t ht => tick_not_playing (Or.inr ht)⟩

theorem win_transition_actions_witness :
    c2WinState.gs.players.find? (fun p => decide (WINNING_SCORE ≤ p.score)) =
      some { pid := "a", paddle := 250, score := 11, ready := true } ∧
    (checkWinner c2WinState).1.gs.gameEnded = true ∧
    (checkWinner c2WinState).1.gs.winner = some "a" ∧
    (checkWinner c2WinState).1.gs.ball = c2WinState.gs.ball := by
  have hw : c2WinState.gs.players.find? (fun p => decide (WINNING_SCORE ≤ p.score)) =
      some { pid := "a", paddle := 250, score := 11, ready := true } := by
    with_unfolding_all decide
  exact ⟨hw, (win_transition_actions c2WinState _ hw).2.1,
    (win_transition_actions c2WinState _ hw).2.2.2.1,
    (win_transition_actions c2WinState _ hw).2.2.2.2.2.2.1⟩

theorem hitCond_update (il : Bool) (pY : ℚ) (b : Ball) (vx vy : ℚ) :
    hitCond il pY { b with vx := vx, vy := vy } = hitCond il pY b := rfl

theorem applyPaddles_pair (p0 p1 : Player) (b : Ball) :
    applyPaddles [p0, p1] b =
      applyPaddle false p1.paddle (applyPaddle true p0.paddle b) := rfl

theorem hitCond_left_not_right {pL pR : ℚ} {b : Ball}
    (h : hitCond true pL b = true) : hitCond false pR b = false := by
  rw [Bool.eq_false_iff]
  intro hcon
  simp [hitCond, WIDTH, Bool.and_eq_true, decide_eq_true_eq] at h hcon
  linarith [h.1.1, hcon.1.1]

theorem hitCond_right_not_left {pL pR : ℚ} {b : Ball}
    (h : hitCond false pR b = true) : hitCond true pL b = false := by
  rw [Bool.eq_false_iff]
  intro hcon
  simp [hitCond, WIDTH, Bool.and_eq_true, decide_eq_true_eq] at h hcon
  linarith [h.1.1, hcon.1.1]

theorem applyPaddle_hit {il : Bool} {pY : ℚ} {b : Ball}
    (h : hitCond il pY b = true) :
    applyPaddle il pY b =
      { b with vx := -b.vx, vy := ((b.y - pY) / PADDLE_HEIGHT - 1/2) * 8 } := by
  unfold applyPaddle
  rw [if_pos h]

theorem applyPaddle_miss {il : Bool} {pY : ℚ} {b : Ball}
    (h : hitCond il pY b = false) :
    applyPaddle il pY b = b := by
  unfold applyPaddle
  rw [h]
  simp

/-- C5 counterexample: at `c5State` the ball moves rightward
(`vx = 5 > 0`), i.e. away from the left paddle and not within the
right paddle's slab (the right-paddle condition is false); yet the
tick inverts `vx` to -5 through the left-paddle branch.  The collision
test is purely positional: the source never checks the sign of `vx`,
so "only while moving toward the paddle" fails. -/
theorem paddle_bounce_ignores_direction_cex :
    c5State.gs.ball.vx = 5 ∧
    (0 : ℚ) < c5State.gs.ball.vx ∧
    (integrate c5State.gs.ball).x = 23 ∧
    hitCond true (250 : ℚ) (wallBounce (integrate c5State.gs.ball)) = true ∧
    hitCond false (250 : ℚ) (wallBounce (integrate c5State.gs.ball)) = false ∧
    (tick c5State).gs.ball.vx = -5 := by
  refine ⟨rfl, ?_, ?_, ?_, ?_, ?_⟩ <;> with_unfolding_all decide

/-- C5 amended: for a two-player Playing tick, after integration and
wall bounce the paddle step is purely positional — `vx` is inverted
exactly when the slab-overlap condition (`hitCond`: the ball's
horizontal edge within the paddle's plane slab AND the ball's y within
the paddle's padded vertical extent) holds for the left or the right
paddle, regardless of the ball's direction of motion; on a hit `vy`
becomes the normalized hit offset ((y − paddleTop)/paddleHeight − 1/2)
times the fixed spin factor 8, and with no hit the ball is untouched. -/
theorem paddle_collision_positional (s : ServerState) (p0 p1 : Player)
    (hpl : s.gs.players = [p0, p1])
    (hst : s.gs.gameStarted = true) (hend : s.gs.gameEnded = false) :
    (tick s).gs.ball =
      applyPaddle false p1.paddle
        (applyPaddle true p0.paddle (wallBounce (integrate s.gs.ball))) ∧
    (hitCond true p0.paddle (wallBounce (integrate s.gs.ball)) = true →
      hitCond false p1.paddle (wallBounce (integrate s.gs.ball)) = false) ∧
    (hitCond true p0.paddle (wallBounce (integrate s.gs.ball)) = true →
      (tick s).gs.ball.vx = -(wallBounce (integrate s.gs.ball)).vx ∧
      (tick s).gs.ball.vy =
        (((wallBounce (integrate s.gs.ball)).y - p0.paddle) / PADDLE_HEIGHT
          - 1/2) * 8 ∧
      (tick s).gs.ball.x = (wallBounce (integrate s.gs.ball)).x ∧
      (tick s).gs.ball.y = (wallBounce (integrate s.gs.ball)).y) ∧
    (hitCond false p1.paddle (wallBounce (integrate s.gs.ball)) = true →
      (tick s).gs.ball.vx = -(wallBounce (integrate s.gs.ball)).vx ∧
      (tick s).gs.ball.vy =
        (((wallBounce (integrate s.gs.ball)).y - p1.paddle) / PADDLE_HEIGHT
          - 1/2) * 8) ∧
    (hitCond true p0.paddle (wallBounce (integrate s.gs.ball)) = false →
      hitCond false p1.paddle (wallBounce (integrate s.gs.ball)) = false →
      (tick s).gs.ball = wallBounce (integrate s.gs.ball)) := by
  have hb : (tick s).gs.ball =
      applyPaddle false p1.paddle
        (applyPaddle true p0.paddle (wallBounce (integrate s.gs.ball))) := by
    rw [tick_ball hst hend, ballAfterPhysics, hpl, applyPaddles_pair]
  refine ⟨hb, fun h => hitCond_left_not_right h, ?_, ?_, ?_⟩
  · intro h
    have hr :
        hitCond false p1.paddle
          { wallBounce (integrate s.gs.ball) with
            vx := -(wallBounce (integrate s.gs.ball)).vx,
            vy := (((wallBounce (integrate s.gs.ball)).y - p0.paddle) /
              PADDLE_HEIGHT - 1/2) * 8 } = false := by
      rw [hitCond_update]
      exact hitCond_left_not_right h
    rw [hb, applyPaddle_hit h, applyPaddle_miss hr]
    exact ⟨rfl, rfl, rfl, rfl⟩
  · intro h
    rw [hb, applyPaddle_miss (hitCond_right_not_left h), applyPaddle_hit h]
    exact ⟨rfl, rfl⟩
  · intro h0 h1
    rw [hb, applyPaddle_miss h0, applyPaddle_miss h1]

theorem paddle_collision_positional_witness :
    hitCond true (250 : ℚ) (wallBounce (integrate c5State.gs.ball)) = true ∧
    (tick c5State).gs.ball.vx = -(wallBounce (integrate c5State.gs.ball)).vx ∧
    (tick c5State).gs.ball.vy =
      (((wallBounce (integrate c5State.gs.ball)).y - (250 : ℚ)) / PADDLE_HEIGHT
        - 1/2) * 8 := by
  have hh : hitCond true (250 : ℚ)
      (wallBounce (integrate c5State.gs.ball)) = true := by
    with_unfolding_all decide
  have h := (paddle_collision_positional c5State
    { pid := "a", paddle := 250, score := 0, ready := true }
    { pid := "b", paddle := 250, score := 0, ready := true } rfl rfl rfl).2.2.1 hh
  exact ⟨hh, h.1, h.2.1⟩

end PingPong

namespace PingPong

theorem setReady_idem (pid : String) (l : List Player) :
    setReady pid (setReady pid l) = setReady pid l := by
  induction l with
  | nil => rfl
  | cons p t ih =>
      by_cases h : p.pid = pid
      · simp [setReady, h] at ih ⊢
        exact ih
      · simp [setReady, h] at ih ⊢
        exact ih

theorem length_setReady (pid : String) (l : List Player) :
    (setReady pid l).length = l.length := by
  unfold setReady
  exact List.length_map _ _

theorem canStart_iff (s : ServerState) :
    canStart s = true ↔
      2 ≤ s.gs.players.length ∧ 2 ≤ readyCount s.gs.players ∧
      s.gs.gameStarted = false ∧ s.gs.gameEnded = false := by
  simp [canStart, Bool.and_eq_true, decide_eq_true_eq, Bool.not_eq_true',
    and_assoc]

theorem checkGameStart_started (coin : Bool) (r : ℚ) (t : ServerState) :
    (checkGameStart coin r t).gs.gameStarted = true ↔
      canStart t = true ∨ t.gs.gameStarted = true := by
  unfold checkGameStart
  split
  · rename_i hc
    exact iff_of_true rfl (Or.inl hc)
  · rename_i hc
    simp [hc]

theorem checkGameStart_ended_false (coin : Bool) (r : ℚ) (t : ServerState)
    (h : t.gs.gameEnded = false) : (checkGameStart coin r t).gs.gameEnded = false := by
  unfold checkGameStart
  split
  · rfl
  · exact h

theorem checkGameStart_winner_none (coin : Bool) (r : ℚ) (t : ServerState)
    (h : t.gs.winner = none) : (checkGameStart coin r t).gs.winner = none := by
  unfold checkGameStart
  split
  · rfl
  · exact h

/-- C3 amended: while Ended, a rematch request marks the requester
ready and immediately clears the Ended/winner marker (it does not wait
for the other session); the match then restarts exactly when at least
two sessions exist and at least two ready flags are set.  A repeated
request from the same session is absorbed by the map (`setReady` is
idempotent) and never double-counts — but since ready flags are never
cleared at match start or end, the other session's stale flag from the
previous game can still count, so a single session's request can
restart the match (see the counterexample). -/
theorem rematch_request_behavior (s : ServerState) (pid : String) (coin : Bool)
    (r : ℚ) (hend : s.gs.gameEnded = true) (hst : s.gs.gameStarted = false) :
    (onPlayAgain pid coin r s).gs.gameEnded = false ∧
    (onPlayAgain pid coin r s).gs.winner = none ∧
    setReady pid (setReady pid s.gs.players) = setReady pid s.gs.players ∧
    ((onPlayAgain pid coin r s).gs.gameStarted = true ↔
      2 ≤ s.gs.players.length ∧ 2 ≤ readyCount (setReady pid s.gs.players)) := by
  unfold onPlayAgain
  dsimp only
  rw [if_pos hend]
  refine ⟨checkGameStart_ended_false _ _ _ rfl, checkGameStart_winner_none _ _ _ rfl,
    setReady_idem pid s.gs.players, ?_⟩
  rw [checkGameStart_started, canStart_iff]
  simp [hst, length_setReady]

end PingPong

namespace PingPong

set_option maxRecDepth 40000 in
/-- C3 counterexample: a full match is simulated from the initial
state through a trace that contains no `playAgain` operation at all
(both ready flags were set before the match and are never cleared).
In the resulting reachable Ended state, a single `playAgain` from
session "a" alone restarts the match (`gameStarted` becomes true),
refuting "a single session's request(s) can never restart the match
alone". -/
theorem single_session_rematch_restarts_cex :
    Reachable c3EndState ∧
    applyOps c3Trace initState = c3EndState ∧
    c3Trace.all (fun op => !op.isPlayAgain) = true ∧
    c3EndState.gs.gameEnded = true ∧
    ((c3EndState.gs.players.get? 1).map Player.ready = some true) ∧
    (applyOp (Op.playAgain "a" true (1/2)) c3EndState).gs.gameStarted = true := by
  refine ⟨c3_end_reachable, c3_run.1, ?_, rfl, rfl, ?_⟩
  · with_unfolding_all decide
  · with_unfolding_all decide

theorem rematch_request_behavior_witness :
    (onPlayAgain "a" true (1/2) c3EndState).gs.gameEnded = false ∧
    ((onPlayAgain "a" true (1/2) c3EndState).gs.gameStarted = true ↔
      2 ≤ c3EndState.gs.players.length ∧
      2 ≤ readyCount (setReady "a" c3EndState.gs.players)) :=
  ⟨(rematch_request_behavior c3EndState "a" true (1/2) rfl rfl).1,
   (rematch_request_behavior c3EndState "a" true (1/2) rfl rfl).2.2.2⟩

end PingPong

namespace PingPong

theorem scoring_tail_started (X : ServerState × Bool) (n : Nat) :
    (if X.2 = true then X.1 else { X.1 with pendingRespawn := n }).gs.gameStarted =
      X.1.gs.gameStarted := by
  split <;> rfl

theorem scoring_tail_ended (X : ServerState × Bool) (n : Nat) :
    (if X.2 = true then X.1 else { X.1 with pendingRespawn := n }).gs.gameEnded =
      X.1.gs.gameEnded := by
  split <;> rfl

theorem checkWinner_flags (t : ServerState) :
    ((checkWinner t).1.gs.gameStarted = t.gs.gameStarted ∧
      (checkWinner t).1.gs.gameEnded = t.gs.gameEnded) ∨
    ((checkWinner t).1.gs.gameStarted = false ∧
      (checkWinner t).1.gs.gameEnded = true) := by
  unfold checkWinner
  split
  · right; exact ⟨rfl, rfl⟩
  · left; exact ⟨rfl, rfl⟩

theorem checkGameStart_flagsOk (coin : Bool) (r : ℚ) (t : ServerState)
    (h : ¬(t.gs.gameStarted = true ∧ t.gs.gameEnded = true)) :
    ¬((checkGameStart coin r t).gs.gameStarted = true ∧
      (checkGameStart coin r t).gs.gameEnded = true) := by
  unfold checkGameStart
  split
  · intro hc
    exact Bool.false_ne_true hc.2
  · exact h

theorem tick_flagsOk (s : ServerState)
    (h : ¬(s.gs.gameStarted = true ∧ s.gs.gameEnded = true)) :
    ¬((tick s).gs.gameStarted = true ∧ (tick s).gs.gameEnded = true) := by
  unfold tick
  dsimp only
  split
  · exact h
  · split
    · split
      · rw [scoring_tail_started, scoring_tail_ended]
        rcases checkWinner_flags
          { gs := { s.gs with
              ball := ballAfterPhysics s.gs.players s.gs.ball,
              players := incScore _ s.gs.players }
            ballResetInProgress := true
            intervalRunning := s.intervalRunning
            pendingRespawn := s.pendingRespawn
            emittedGameWon := s.emittedGameWon } with hcw | hcw
        · rw [hcw.1, hcw.2]
          exact h
        · rw [hcw.1, hcw.2]
          intro hc
          exact Bool.false_ne_true hc.1
      · exact h
    · exact h

theorem applyOp_flagsOk (op : Op) (s : ServerState)
    (h : ¬(s.gs.gameStarted = true ∧ s.gs.gameEnded = true)) :
    ¬((applyOp op s).gs.gameStarted = true ∧
      (applyOp op s).gs.gameEnded = true) := by
  cases op with
  | connect pid => exact h
  | disconnect pid =>
      show ¬((onDisconnect pid s).gs.gameStarted = true ∧
        (onDisconnect pid s).gs.gameEnded = true)
      unfold onDisconnect
      dsimp only
      split
      · intro hc
        exact Bool.false_ne_true hc.1
      · exact h
  | startEvt pid coin r => exact checkGameStart_flagsOk coin r _ h
  | playAgain pid coin r =>
      show ¬((onPlayAgain pid coin r s).gs.gameStarted = true ∧
        (onPlayAgain pid coin r s).gs.gameEnded = true)
      unfold onPlayAgain
      dsimp only
      split
      · apply checkGameStart_flagsOk
        intro hc
        exact Bool.false_ne_true hc.2
      · exact checkGameStart_flagsOk coin r _ h
  | paddleMove pid up =>
      show ¬((onPaddleMove pid up s).gs.gameStarted = true ∧
        (onPaddleMove pid up s).gs.gameEnded = true)
      unfold onPaddleMove
      split
      · exact h
      · exact h
  | paddlePos pid y =>
      show ¬((onPaddlePos pid y s).gs.gameStarted = true ∧
        (onPaddlePos pid y s).gs.gameEnded = true)
      unfold onPaddlePos
      split
      · exact h
      · exact h
  | tickOp => exact tick_flagsOk s h
  | respawnFire coin r =>
      show ¬((respawnFire coin r s).gs.gameStarted = true ∧
        (respawnFire coin r s).gs.gameEnded = true)
      unfold respawnFire
      dsimp only
      split
      · exact h
      · exact h

/-- C9 (confirmed): in every reachable server state, `gameStarted` and
`gameEnded` are never both true — every operation (connect, disconnect,
ready/rematch handlers, tick with its `checkWinner` branch, respawn)
preserves the mutual exclusion, so the Lobby/Playing/Ended phase
encoded by the two booleans is always well-defined. -/
theorem started_ended_mutually_exclusive (s : ServerState) (hs : Reachable s) :
    ¬(s.gs.gameStarted = true ∧ s.gs.gameEnded = true) := by
  induction hs with
  | init => exact fun hc => Bool.false_ne_true hc.1
  | step op hs hok ih => exact applyOp_flagsOk op _ ih

theorem started_ended_mutually_exclusive_witness :
    ¬(initState.gs.gameStarted = true ∧ initState.gs.gameEnded = true) :=
  started_ended_mutually_exclusive initState Reachable.init

end PingPong

namespace PingPong

theorem mem_drop_of_mem_drop_succ {α : Type} {l : List α} {p : α} {n : Nat}
    (h : p ∈ l.drop (n + 1)) : p ∈ l.drop n := by
  have e : List.drop 1 (List.drop n l) = List.drop (n + 1) l := by
    rw [List.drop_drop]
  rw [← e] at h
  exact List.mem_of_mem_drop h

theorem mem_drop_append_single {α : Type} {l : List α} {x p : α} {n : Nat}
    (h : p ∈ (l ++ [x]).drop n) : p ∈ l.drop n ∨ p = x := by
  induction l generalizing n with
  | nil =>
      cases n with
      | zero => right; simpa using h
      | succ m => simp at h
  | cons a t ih =>
      cases n with
      | zero =>
          rcases List.mem_cons.mp h with h | h
          · left; exact List.mem_cons.mpr (Or.inl h)
          · rcases (ih (n := 0) h) with h2 | h2
            · left; exact List.mem_cons.mpr (Or.inr h2)
            · right; exact h2
      | succ m =>
          rw [List.cons_append, List.drop_succ_cons] at h
          rw [List.drop_succ_cons]
          exact ih h

theorem mem_drop_filter {α : Type} {q : α → Bool} {l : List α} {p : α} {n : Nat}
    (h : p ∈ (l.filter q).drop n) : p ∈ l.drop n := by
  induction l generalizing n with
  | nil => simp at h
  | cons a t ih =>
      by_cases hq : q a = true
      · rw [List.filter_cons_of_pos hq] at h
        cases n with
        | zero =>
            rcases List.mem_cons.mp h with h | h
            · exact List.mem_cons.mpr (Or.inl h)
            · exact List.mem_cons.mpr (Or.inr (List.mem_of_mem_drop (ih (n := 0) h)))
        | succ m =>
            rw [List.drop_succ_cons] at h ⊢
            exact ih h
      · rw [List.filter_cons_of_neg (by simpa using hq)] at h
        cases n with
        | zero =>
            exact List.mem_cons.mpr (Or.inr (List.mem_of_mem_drop (ih (n := 0) h)))
        | succ m =>
            rw [List.drop_succ_cons]
            exact mem_drop_of_mem_drop_succ (ih (n := m + 1) h)

theorem map_pid_comm (f : Player → Player) (hf : ∀ p, (f p).pid = p.pid)
    (l : List Player) : (l.map f).map Player.pid = l.map Player.pid := by
  rw [List.map_map]
  induction l with
  | nil => rfl
  | cons p t ih => simp only [List.map_cons, Function.comp, hf, ih]

theorem tailZero_map_of_score_eq (f : Player → Player)
    (hf : ∀ p, (f p).score = p.score) {l : List Player}
    (h : ∀ p ∈ l.drop 2, p.score = 0) : ∀ p ∈ (l.map f).drop 2, p.score = 0 := by
  intro p hp
  rw [← List.map_drop] at hp
  rcases List.mem_map.mp hp with ⟨q, hq, rfl⟩
  rw [hf]
  exact h q hq

theorem tailZero_resetScores (l : List Player) :
    ∀ p ∈ (resetScores l).drop 2, p.score = 0 := by
  intro p hp
  rw [resetScores, ← List.map_drop] at hp
  rcases List.mem_map.mp hp with ⟨q, _, rfl⟩
  rfl

theorem tailZero_incScore {l : List Player} {sc : Player}
    (hnd : (l.map Player.pid).Nodup)
    (hsc : l.get? 0 = some sc ∨ l.get? 1 = some sc)
    (h : ∀ p ∈ l.drop 2, p.score = 0) :
    ∀ p ∈ (incScore sc.pid l).drop 2, p.score = 0 := by
  intro p hp
  rw [incScore, ← List.map_drop] at hp
  rcases List.mem_map.mp hp with ⟨q, hq, rfl⟩
  have hsc2 : sc ∈ l.take 2 := by
    rcases hsc with h0 | h1
    · exact List.get?_mem (by rw [List.get?_take (by norm_num : (0:Nat) < 2)]; exact h0)
    · exact List.get?_mem (by rw [List.get?_take (by norm_num : (1:Nat) < 2)]; exact h1)
  have hdisj : (List.map Player.pid (List.take 2 l)).Disjoint
      (List.map Player.pid (List.drop 2 l)) := by
    have e : List.map Player.pid l =
        List.map Player.pid (List.take 2 l) ++ List.map Player.pid (List.drop 2 l) := by
      rw [← List.map_append, List.take_append_drop]
    rw [e, List.nodup_append] at hnd
    exact hnd.2.2
  have hqpid : ¬(q.pid = sc.pid) := by
    intro he
    refine hdisj (List.mem_map_of_mem Player.pid hsc2) ?_
    rw [← he]
    exact List.mem_map_of_mem Player.pid hq
  rw [if_neg hqpid]
  exact h q hq

end PingPong

namespace PingPong

theorem tick_players_cases (s : ServerState) :
    (tick s).gs.players = s.gs.players ∨
    ∃ sc : Player, (s.gs.players.get? 0 = some sc ∨ s.gs.players.get? 1 = some sc) ∧
      (tick s).gs.players = incScore sc.pid s.gs.players := by
  unfold tick
  dsimp only
  split
  · left; rfl
  · split
    · split
      · rename_i sc hmatch
        right
        refine ⟨sc, ?_, ?_⟩
        · split at hmatch
          · exact Or.inr hmatch
          · exact Or.inl hmatch
        · rw [scoring_tail_players]
          exact (checkWinner_preserves _).2.1
      · left; rfl
    · left; rfl

theorem checkGameStart_players (coin : Bool) (r : ℚ) (t : ServerState) :
    (checkGameStart coin r t).gs.players = t.gs.players ∨
    (checkGameStart coin r t).gs.players = resetScores t.gs.players := by
  unfold checkGameStart
  split
  · right; rfl
  · left; rfl

theorem stateInv_of_players_cases {s t : ServerState}
    (h : stateInv s)
    (hc : t.gs.players = s.gs.players ∨ t.gs.players = resetScores s.gs.players) :
    stateInv t := by
  rcases hc with hc | hc
  · exact ⟨by rw [hc]; exact h.1, by rw [hc]; exact h.2⟩
  · constructor
    · rw [hc, resetScores,
        map_pid_comm (fun p => { p with score := 0 }) (fun p => rfl)]
      exact h.1
    · rw [hc]
      exact tailZero_resetScores _
  
theorem setReady_stateInv {s : ServerState} (h : stateInv s) (pid : String) :
    stateInv { s with gs := { s.gs with players := setReady pid s.gs.players } } := by
  constructor
  · show ((setReady pid s.gs.players).map Player.pid).Nodup
    rw [setReady, map_pid_comm
      (fun p => if p.pid = pid then { p with ready := true } else p)
      (fun p => by dsimp only; split <;> rfl)]
    exact h.1
  · show ∀ p ∈ (setReady pid s.gs.players).drop 2, p.score = 0
    rw [setReady]
    exact tailZero_map_of_score_eq
      (fun p => if p.pid = pid then { p with ready := true } else p)
      (fun p => by dsimp only; split <;> rfl) h.2

end PingPong

namespace PingPong

theorem applyOp_stateInv (op : Op) (s : ServerState) (hok : opOk op s = true)
    (h : stateInv s) : stateInv (applyOp op s) := by
  cases op with
  | connect pid =>
      have hfresh : ∀ p ∈ s.gs.players, ¬(p.pid = pid) := by
        intro p hp he
        have : (s.gs.players.any fun p => p.pid == pid) = true :=
          List.any_eq_true.mpr ⟨p, hp, by simp [he]⟩
        simp only [opOk, this] at hok
        exact Bool.false_ne_true hok
      constructor
      · show ((s.gs.players ++
          [({ pid := pid, paddle := HEIGHT / 2 - PADDLE_HEIGHT / 2,
              score := 0, ready := false } : Player)]).map Player.pid).Nodup
        rw [List.map_append, List.nodup_append]
        refine ⟨h.1, List.nodup_singleton _, ?_⟩
        intro a ha hb
        simp only [List.map_cons, List.map_nil, List.mem_singleton] at hb
        subst hb
        rcases List.mem_map.mp ha with ⟨p, hp, hpe⟩
        exact hfresh p hp hpe
      · intro p hp
        rcases mem_drop_append_single hp with h2 | h2
        · exact h.2 p h2
        · rw [h2]
  | disconnect pid =>
      show stateInv (onDisconnect pid s)
      unfold onDisconnect
      dsimp only
      split
      · constructor
        · show ((((s.gs.players.filter fun p => p.pid != pid).map
            fun p => { p with ready := false }).map Player.pid)).Nodup
          rw [map_pid_comm (fun p => { p with ready := false }) (fun p => rfl)]
          exact List.Nodup.sublist ((List.filter_sublist _).map Player.pid) h.1
        · intro p hp
          rw [← List.map_drop] at hp
          rcases List.mem_map.mp hp with ⟨q, hq, rfl⟩
          exact h.2 q (mem_drop_filter hq)
      · constructor
        · exact List.Nodup.sublist ((List.filter_sublist _).map Player.pid) h.1
        · intro p hp
          exact h.2 p (mem_drop_filter hp)
  | startEvt pid coin r =>
      show stateInv (onStartGameEvt pid coin r s)
      unfold onStartGameEvt
      exact stateInv_of_players_cases (setReady_stateInv h pid)
        (checkGameStart_players coin r _)
  | playAgain pid coin r =>
      show stateInv (onPlayAgain pid coin r s)
      unfold onPlayAgain
      dsimp only
      split
      · exact stateInv_of_players_cases (setReady_stateInv h pid)
          (checkGameStart_players coin r _)
      · exact stateInv_of_players_cases (setReady_stateInv h pid)
          (checkGameStart_players coin r _)
  | paddleMove pid up =>
      show stateInv (onPaddleMove pid up s)
      unfold onPaddleMove
      split
      · exact h
      · constructor
        · show ((s.gs.players.map fun p =>
            if p.pid = pid then
              { p with paddle :=
                  if up then max 0 (p.paddle - PADDLE_SPEED)
                  else min (HEIGHT - PADDLE_HEIGHT) (p.paddle + PADDLE_SPEED) }
            else p).map Player.pid).Nodup
          rw [map_pid_comm (fun p =>
            if p.pid = pid then
              { p with paddle :=
                  if up then max 0 (p.paddle - PADDLE_SPEED)
                  else min (HEIGHT - PADDLE_HEIGHT) (p.paddle + PADDLE_SPEED) }
            else p) (fun p => by dsimp only; split <;> rfl)]
          exact h.1
        · exact tailZero_map_of_score_eq (fun p =>
            if p.pid = pid then
              { p with paddle :=
                  if up then max 0 (p.paddle - PADDLE_SPEED)
                  else min (HEIGHT - PADDLE_HEIGHT) (p.paddle + PADDLE_SPEED) }
            else p) (fun p => by dsimp only; split <;> rfl) h.2
  | paddlePos pid y =>
      show stateInv (onPaddlePos pid y s)
      unfold onPaddlePos
      split
      · exact h
      · constructor
        · show ((s.gs.players.map fun p =>
            if p.pid = pid then
              { p with paddle := max 0 (min (HEIGHT - PADDLE_HEIGHT) y) }
            else p).map Player.pid).Nodup
          rw [map_pid_comm (fun p =>
            if p.pid = pid then
              { p with paddle := max 0 (min (HEIGHT - PADDLE_HEIGHT) y) }
            else p) (fun p => by dsimp only; split <;> rfl)]
          exact h.1
        · exact tailZero_map_of_score_eq (fun p =>
            if p.pid = pid then
              { p with paddle := max 0 (min (HEIGHT - PADDLE_HEIGHT) y) }
            else p) (fun p => by dsimp only; split <;> rfl) h.2
  | tickOp =>
      show stateInv (tick s)
      rcases tick_players_cases s with hc | ⟨sc, hsc, hc⟩
      · exact ⟨by rw [hc]; exact h.1, by rw [hc]; exact h.2⟩
      · constructor
        · rw [hc, incScore, map_pid_comm (fun p =>
            if p.pid = sc.pid then { p with score := p.score + 1 } else p)
            (fun p => by dsimp only; split <;> rfl)]
          exact h.1
        · rw [hc]
          exact tailZero_incScore h.1 hsc h.2
  | respawnFire coin r =>
      show stateInv (respawnFire coin r s)
      unfold respawnFire
      dsimp only
      split
      · exact h
      · exact h

theorem reachable_stateInv {s : ServerState} (hs : Reachable s) : stateInv s := by
  induction hs with
  | init =>
      constructor
      · exact List.nodup_nil
      · intro p hp
        simp [initState] at hp
  | step op hs hok ih => exact applyOp_stateInv op _ hok ih

/-- C10 (confirmed): in every reachable server state, the score of any
session other than the first two in current join order is zero — the
scoring step only ever awards a point to the first or second entry of
the join-order map, connects append fresh zero-score entries,
disconnects only shift sessions toward lower indices, and `startGame`
zeroes every score. -/
theorem extra_sessions_never_score (s : ServerState) (hs : Reachable s) :
    ∀ i p, 2 ≤ i → s.gs.players.get? i = some p → p.score = 0 := by
  intro i p hi hp
  have hinv := reachable_stateInv hs
  apply hinv.2
  have e : s.gs.players.get? (2 + (i - 2)) = (s.gs.players.drop 2).get? (i - 2) :=
    (List.get?_drop _ _ _).symm
  rw [show 2 + (i - 2) = i from by omega] at e
  rw [e] at hp
  exact List.get?_mem hp

theorem extra_sessions_never_score_witness :
    (applyOps [Op.connect "a", Op.connect "b", Op.connect "c"]
      initState).gs.players.get? 2 =
        some { pid := "c", paddle := 250, score := 0, ready := false } ∧
    ({ pid := "c", paddle := 250, score := 0, ready := false } : Player).score = 0 := by
  have hr : Reachable
      (applyOps [Op.connect "a", Op.connect "b", Op.connect "c"] initState) :=
    reachable_applyOps _ Reachable.init (by with_unfolding_all decide)
  refine ⟨by with_unfolding_all decide, ?_⟩
  exact extra_sessions_never_score _ hr 2 _ (by decide)
    (by with_unfolding_all decide)

end PingPong
